import Mathlib

/-!
Verification of the Heap-Layers wrapper core: the generic `realloc` /
`calloc` implementations of `wrappers/wrapper-common.h` and the
`replace_*` entry points of `wrappers/macwrapper.cpp`, shallowly embedded
over the four-primitive minimal allocator interface
(`xxmalloc` / `xxfree` / `xxmalloc_usable_size` / lock, unlock).

The underlying allocator is modelled as an oracle (`AllocEnv`): a function
giving the address returned by the n-th `xxmalloc` call (address `0` is the
null pointer, as in C) and a usable-size map.  Each operation threads an
explicit state (`AllocState`) recording the calls made to the minimal
interface, the byte-addressed memory contents, and `errno`.  `size_t`
arithmetic that can wrap is taken modulo `2 ^ 64`.
-/

namespace HeapLayers

/-- Calls made to the minimal allocator interface, in order. -/
inductive AllocEvent where
  | malloc (sz ret : Nat)
  | free (p : Nat)
  | usableQuery (p : Nat)
deriving DecidableEq

/-- The underlying allocator, as an oracle: `mallocAt n sz` is the address
returned by the n-th `xxmalloc` call when asked for `sz` bytes (0 = null =
failure), and `usableSize p` is what `xxmalloc_usable_size` reports for `p`. -/
structure AllocEnv where
  mallocAt : Nat → Nat → Nat
  usableSize : Nat → Nat

/-- Explicit state threaded through each operation: number of `xxmalloc`
calls made so far, the trace of minimal-interface calls, byte-addressed
memory, and the C `errno` cell (0 = not set). -/
structure AllocState where
  nCalls : Nat
  events : List AllocEvent
  mem : Nat → Nat
  errno : Nat

/-- The minimal-interface primitive `xxmalloc`. -/
def xxmalloc (env : AllocEnv) (st : AllocState) (sz : Nat) : Nat × AllocState :=
  let r := env.mallocAt st.nCalls sz
  (r, { st with nCalls := st.nCalls + 1, events := st.events ++ [AllocEvent.malloc sz r] })

/-- The minimal-interface primitive `xxfree`. -/
def xxfree (st : AllocState) (p : Nat) : AllocState :=
  { st with events := st.events ++ [AllocEvent.free p] }

/-- The minimal-interface primitive `xxmalloc_usable_size`. -/
def xxmalloc_usable_size (env : AllocEnv) (st : AllocState) (p : Nat) : Nat × AllocState :=
  (env.usableSize p, { st with events := st.events ++ [AllocEvent.usableQuery p] })

/-- Effect of `memcpy(dst, src, n)` on the byte map. -/
def memcpyBytes (mem : Nat → Nat) (dst src n : Nat) : Nat → Nat :=
  fun a => if dst ≤ a ∧ a < dst + n then mem (src + (a - dst)) else mem a

/-- Effect of `memset(dst, 0, n)` on the byte map. -/
def memsetZero (mem : Nat → Nat) (dst n : Nat) : Nat → Nat :=
  fun a => if dst ≤ a ∧ a < dst + n then 0 else mem a

/-- The macOS `errno` value `ENOMEM`. -/
def ENOMEM : Nat := 12

/-- The macOS `errno` value `EINVAL`. -/
def EINVAL : Nat := 22

/-- The generic `xxrealloc` of `wrappers/wrapper-common.h` (the identical
text also appears as `HL_PREFIX(realloc)` in the unnamed wrapper header).
The source line `auto oldSize = HL_PREFIX(malloc_usable_size)(ptr);` reads a
variable `ptr` that is declared nowhere in the function (the parameter is
`oldPtr`); it is embedded as `oldPtr`, the only pointer in scope it can
denote.  Note the relocation path copies `copySize` bytes and returns the
new block without any `xxfree(oldPtr)` call. -/
def xxrealloc (env : AllocEnv) (oldPtr newSize : Nat) (st : AllocState) : Nat × AllocState :=
  if oldPtr = 0 then
    xxmalloc env st newSize
  else if newSize = 0 then
    xxmalloc env (xxfree st oldPtr) 1
  else
    let q := xxmalloc_usable_size env st oldPtr
    let oldSize := q.1
    let st1 := q.2
    let upperBoundToShrink := oldSize / 2
    if newSize > upperBoundToShrink ∧ newSize ≤ oldSize then
      (oldPtr, st1)
    else
      let lowerBoundToGrow := (oldSize + oldSize / 4) % 2 ^ 64
      let newSize2 := if newSize < lowerBoundToGrow then lowerBoundToGrow else newSize
      let m := xxmalloc env st1 newSize2
      if m.1 = 0 then
        (0, m.2)
      else
        let copySize := if oldSize < newSize2 then oldSize else newSize2
        (m.1, { m.2 with mem := memcpyBytes m.2.mem m.1 oldPtr copySize })

/-- The generic `xxcalloc` of `wrappers/wrapper-common.h`: the guard
`size && count > (size_t)-1 / size` sets `errno = ENOMEM` and returns null;
otherwise `n = count * size` (as `size_t`, hence mod `2 ^ 64`) is allocated
and zero-filled when the allocation succeeds. -/
def xxcalloc (env : AllocEnv) (count size : Nat) (st : AllocState) : Nat × AllocState :=
  if size ≠ 0 ∧ count > (2 ^ 64 - 1) / size then
    (0, { st with errno := ENOMEM })
  else
    let n := (count * size) % 2 ^ 64
    let m := xxmalloc env st n
    if m.1 ≠ 0 then
      (m.1, { m.2 with mem := memsetZero m.2.mem m.1 n })
    else
      m

/-- The platform's `alignof(max_align_t)`: 16 on the 64-bit macOS targets
`macwrapper.cpp` is restricted to. -/
def kMaxAlign : Nat := 16

/-- 64-bit bitwise complement: for `x < 2 ^ 64` this is the value of the C
expression `~x` on `size_t`. -/
def not64 (x : Nat) : Nat := (2 ^ 64 - 1) - x

/-- The loop `while (a < alignment) a <<= 1;` of `replace_memalign`,
starting from `alignof(max_align_t)`; the shift wraps on `size_t`.  Fuel 64
covers every terminating execution of the C loop (the C loop does not
terminate once `a` wraps to 0, which fuel exhaustion maps to returning the
current `a`). -/
def growAlignAux : Nat → Nat → Nat → Nat
  | 0, a, _ => a
  | fuel + 1, a, target => if a < target then growAlignAux fuel ((2 * a) % 2 ^ 64) target else a

/-- Alignment normalization at the top of `replace_memalign`: raise to at
least `alignof(max_align_t)`, then if not a power of two, double up from
`alignof(max_align_t)` until reaching the requested alignment. -/
def normalizeAlignment (alignment : Nat) : Nat :=
  let a1 := if alignment < kMaxAlign then kMaxAlign else alignment
  if a1 &&& (a1 - 1) ≠ 0 then growAlignAux 64 kMaxAlign a1 else a1

/-- The `replace_memalign` of `wrappers/macwrapper.cpp`: normalize the
alignment, then three attempts — `malloc(size)` returned if already
aligned; `malloc(size rounded up to a multiple of the alignment)` returned
if aligned; else `malloc(2 * alignment + size)` with the result rounded up
to the next alignment boundary.  Each rejected attempt is freed first. -/
def replace_memalign (env : AllocEnv) (alignment size : Nat) (st : AllocState) :
    Nat × AllocState :=
  let al := normalizeAlignment alignment
  let m1 := xxmalloc env st size
  if m1.1 &&& not64 (al - 1) = m1.1 then
    m1
  else
    let st2 := xxfree m1.2 m1.1
    let size2 := if al < size then (size + al - size % al) % 2 ^ 64 else al
    let m2 := xxmalloc env st2 size2
    if m2.1 &&& not64 (al - 1) = m2.1 then
      m2
    else
      let st4 := xxfree m2.2 m2.1
      let m3 := xxmalloc env st4 ((2 * al + size2) % 2 ^ 64)
      (((m3.1 + al - 1) % 2 ^ 64) &&& not64 (al - 1), m3.2)

/-- The `replace_posix_memalign` of `wrappers/macwrapper.cpp`: reject a zero
or non-power-of-two alignment with `EINVAL` before any allocation; otherwise
delegate to `replace_memalign`, reporting `ENOMEM` on a null result and
storing the block through the out-parameter (modelled as the `Option Nat`
component) on success. -/
def replace_posix_memalign (env : AllocEnv) (alignment size : Nat) (st : AllocState) :
    (Nat × Option Nat) × AllocState :=
  if alignment = 0 ∨ alignment &&& (alignment - 1) ≠ 0 then
    ((EINVAL, none), st)
  else
    let m := replace_memalign env alignment size st
    if m.1 = 0 then
      ((ENOMEM, none), m.2)
    else
      ((0, some m.1), m.2)

/-- The `replace_reallocf` of `wrappers/macwrapper.cpp`: call `realloc`, and
when it returns null additionally free the original pointer. -/
def replace_reallocf (env : AllocEnv) (oldPtr newSize : Nat) (st : AllocState) :
    Nat × AllocState :=
  let m := xxrealloc env oldPtr newSize st
  if m.1 = 0 then (m.1, xxfree m.2 oldPtr) else m

/-- The `replace_malloc_usable_size` of `wrappers/macwrapper.cpp`: null maps
to 0 without consulting the underlying allocator; otherwise the underlying
`xxmalloc_usable_size` is returned. -/
def replace_malloc_usable_size (env : AllocEnv) (p : Nat) (st : AllocState) :
    Nat × AllocState :=
  if p = 0 then (0, st) else xxmalloc_usable_size env st p

/-- Sizes of the `xxmalloc` calls recorded in a trace, in order. -/
def mallocSizes (evs : List AllocEvent) : List Nat :=
  evs.filterMap fun e =>
    match e with
    | AllocEvent.malloc sz _ => some sz
    | _ => none

/-- Whether an event is an `xxfree` call. -/
def AllocEvent.isFree : AllocEvent → Bool
  | AllocEvent.free _ => true
  | _ => false

/-- A trace containing no `xxmalloc` call of size 0. -/
def NoZeroMalloc (evs : List AllocEvent) : Prop :=
  ∀ r, AllocEvent.malloc 0 r ∉ evs

/-- An initial state: empty trace, memory holding its own address at each
byte (so copies are visible), `errno` clear. -/
def st0 : AllocState := ⟨0, [], fun a => a, 0⟩

/-- An allocator oracle whose every allocation returns address 200 and that
reports usable size 8 for every block. -/
def envGrow : AllocEnv := ⟨fun _ _ => 200, fun _ => 8⟩

/-- An allocator oracle whose every allocation fails, reporting usable
size 8 for every block. -/
def envFail : AllocEnv := ⟨fun _ _ => 0, fun _ => 8⟩

/-- An allocator oracle whose every allocation returns address 1024. -/
def envAligned : AllocEnv := ⟨fun _ _ => 1024, fun _ => 0⟩

/-- C1.  With `ptr = 100` (usable size 8), `newSize = 20` and a succeeding
allocator that returns block 200, the engine queries the old size,
allocates 20 bytes, copies `min(oldSize, newSize) = 8` bytes into the new
block (and not a 9th), and returns 200 — but its trace contains no
`xxfree` call at all: the old block is never deallocated, contradicting
the claimed "deallocates the old block". -/
theorem C1_realloc_grow_never_frees :
    (xxrealloc envGrow 100 20 st0).1 = 200 ∧
    (xxrealloc envGrow 100 20 st0).2.events =
      [AllocEvent.usableQuery 100, AllocEvent.malloc 20 200] ∧
    (xxrealloc envGrow 100 20 st0).2.events.filter AllocEvent.isFree = [] ∧
    ((List.range 8).all fun i =>
      (xxrealloc envGrow 100 20 st0).2.mem (200 + i) == 100 + i) = true ∧
    (xxrealloc envGrow 100 20 st0).2.mem 208 = 208 := by
  decide

/-- C2 counterexample.  Deep shrink with `oldSize = 8`, `newSize = 2`: the
engine's only allocation has size 10 = `oldSize + oldSize/4`, not the
claimed `newSize = 2`, and it copies 8 bytes (byte 7 of the old block, at
address 107, lands at 207), not the claimed 2 bytes. -/
theorem C2_deep_shrink_cex :
    mallocSizes (xxrealloc envGrow 100 2 st0).2.events = [10] ∧
    (xxrealloc envGrow 100 2 st0).2.mem 207 = 107 ∧
    (xxrealloc envGrow 100 2 st0).2.mem 201 = 101 := by
  decide

/-- C6: shrink dampening.  For non-null `ptr` and
`oldSize/2 < newSize ≤ oldSize`, `realloc` returns `ptr` unchanged; the
only minimal-interface call made is the usable-size query — no allocation,
no deallocation, and the memory contents are untouched. -/
theorem C6_shrink_dampening (env : AllocEnv) (p n : Nat) (st : AllocState)
    (hp : p ≠ 0) (h1 : env.usableSize p / 2 < n) (h2 : n ≤ env.usableSize p) :
    xxrealloc env p n st =
      (p, { st with events := st.events ++ [AllocEvent.usableQuery p] }) := by
  have hn : n ≠ 0 := by omega
  unfold xxrealloc
  rw [if_neg hp, if_neg hn]
  dsimp only [xxmalloc_usable_size]
  rw [if_pos ⟨h1, h2⟩]

/-- C7: `reallocf` behaves exactly as `realloc`, except that when the
underlying `realloc` returns null it additionally frees the original
pointer before returning null. -/
theorem C7_reallocf_frees_on_failure (env : AllocEnv) (oldPtr newSize : Nat)
    (st : AllocState) :
    ((xxrealloc env oldPtr newSize st).1 ≠ 0 →
      replace_reallocf env oldPtr newSize st = xxrealloc env oldPtr newSize st) ∧
    ((xxrealloc env oldPtr newSize st).1 = 0 →
      replace_reallocf env oldPtr newSize st =
        (0, { (xxrealloc env oldPtr newSize st).2 with
              events := (xxrealloc env oldPtr newSize st).2.events ++
                [AllocEvent.free oldPtr] })) := by
  unfold replace_reallocf
  constructor
  · intro h
    rw [if_neg h]
  · intro h
    rw [if_pos h, h]
    rfl

/-- C8: `realloc(ptr, 0)` with non-null `ptr` frees `ptr` and then requests
a 1-byte block from the underlying allocator, returning its address; the
result is non-null whenever that allocation succeeds. -/
theorem C8_realloc_zero_frees_returns_one_byte (env : AllocEnv) (p : Nat)
    (st : AllocState) (hp : p ≠ 0) :
    xxrealloc env p 0 st =
      (env.mallocAt st.nCalls 1,
        { st with nCalls := st.nCalls + 1,
                  events := st.events ++ [AllocEvent.free p,
                    AllocEvent.malloc 1 (env.mallocAt st.nCalls 1)] }) ∧
    (env.mallocAt st.nCalls 1 ≠ 0 → (xxrealloc env p 0 st).1 ≠ 0) := by
  have hmain : xxrealloc env p 0 st =
      (env.mallocAt st.nCalls 1,
        { st with nCalls := st.nCalls + 1,
                  events := st.events ++ [AllocEvent.free p,
                    AllocEvent.malloc 1 (env.mallocAt st.nCalls 1)] }) := by
    unfold xxrealloc
    rw [if_neg hp, if_pos rfl]
    simp [xxmalloc, xxfree]
  exact ⟨hmain, fun h => by rw [hmain]; simpa using h⟩

/-- C9 counterexample.  `calloc(0, 5)` calls the underlying `xxmalloc`
with size 0, refuting "the core never calls allocate with size 0". -/
theorem C9_zero_alloc_cex :
    (xxcalloc envGrow 0 5 st0).2.events = [AllocEvent.malloc 0 200] := by
  decide

/-- C10: the public usable-size query returns 0 on null without consulting
the underlying allocator (state unchanged), and returns exactly the
underlying usable size for non-null pointers. -/
theorem C10_usable_size_null (env : AllocEnv) (p : Nat) (st : AllocState) :
    replace_malloc_usable_size env 0 st = (0, st) ∧
    (p ≠ 0 → replace_malloc_usable_size env p st =
      (env.usableSize p, { st with events := st.events ++ [AllocEvent.usableQuery p] })) := by
  constructor
  · rfl
  · intro h
    unfold replace_malloc_usable_size
    rw [if_neg h]
    rfl

/-- Bits of a quotient by a power of two, re-indexed. -/
theorem div_pow_testBit (x k j : Nat) (h : k ≤ j) :
    (x / 2 ^ k).testBit (j - k) = x.testBit j := by
  rw [← Nat.shiftRight_eq_div_pow, Nat.testBit_shiftRight]
  congr 1
  omega

/-- Splitting `2 ^ 64 - 2 ^ k` as a shifted all-ones mask. -/
theorem two_pow_sub_two_pow (k : Nat) (hk : k ≤ 64) :
    (2 : Nat) ^ 64 - 2 ^ k = 2 ^ k * (2 ^ (64 - k) - 1) := by
  have h1 : (2 : Nat) ^ k * 2 ^ (64 - k) = 2 ^ 64 := by
    rw [← pow_add]
    congr 1
    omega
  have h2 : (1 : Nat) ≤ 2 ^ (64 - k) := Nat.one_le_two_pow
  rw [Nat.mul_sub, h1, Nat.mul_one]

/-- Value of the 64-bit complement of a low-bits mask. -/
theorem not64_two_pow_sub_one (k : Nat) (hk : k ≤ 64) :
    not64 (2 ^ k - 1) = 2 ^ 64 - 2 ^ k := by
  have h1 : (2 : Nat) ^ k ≤ 2 ^ 64 := Nat.pow_le_pow_right (by norm_num) hk
  have h2 : (1 : Nat) ≤ 2 ^ k := Nat.one_le_two_pow
  unfold not64
  omega

/-- Masking a 64-bit value with `~(2^k - 1)` clears its low `k` bits. -/
theorem land_not64_eq (x k : Nat) (hx : x < 2 ^ 64) (hk : k ≤ 64) :
    x &&& not64 (2 ^ k - 1) = 2 ^ k * (x / 2 ^ k) := by
  rw [not64_two_pow_sub_one k hk, two_pow_sub_two_pow k hk]
  apply Nat.eq_of_testBit_eq
  intro j
  rw [Nat.testBit_and, Nat.testBit_mul_pow_two, Nat.testBit_mul_pow_two,
    Nat.testBit_two_pow_sub_one]
  by_cases hjk : k ≤ j
  · by_cases hj64 : j < 64
    · have h1 : j - k < 64 - k := by omega
      rw [div_pow_testBit x k j hjk]
      simp [hjk, h1, Bool.and_comm]
    · have hxj : x.testBit j = false :=
        Nat.testBit_lt_two_pow
          (lt_of_lt_of_le hx (Nat.pow_le_pow_right (by norm_num) (by omega)))
      rw [div_pow_testBit x k j hjk]
      simp [hxj]
  · simp [hjk]

/-- The mask test of `replace_memalign` succeeds exactly on multiples of
the (power-of-two) alignment. -/
theorem land_not64_self_iff (x k : Nat) (hx : x < 2 ^ 64) (hk : k ≤ 64) :
    x &&& not64 (2 ^ k - 1) = x ↔ 2 ^ k ∣ x := by
  rw [land_not64_eq x k hx hk]
  constructor
  · intro h
    exact h ▸ Dvd.intro _ rfl
  · intro h
    exact Nat.mul_div_cancel' h

/-- The rounded-up interior pointer of `replace_memalign` is always a
multiple of the (power-of-two) alignment. -/
theorem dvd_land_not64 (x k : Nat) (hx : x < 2 ^ 64) (hk : k ≤ 64) :
    2 ^ k ∣ x &&& not64 (2 ^ k - 1) := by
  rw [land_not64_eq x k hx hk]
  exact Dvd.intro _ rfl

/-- A number in `[2^k, 2^(k+1))` has bit `k` set. -/
theorem testBit_of_bounds {x k : Nat} (h1 : 2 ^ k ≤ x) (h2 : x < 2 ^ (k + 1)) :
    x.testBit k = true := by
  rw [Nat.testBit_to_div_mod]
  have hpos : 0 < 2 ^ k := Nat.two_pow_pos k
  have hd1 : 1 ≤ x / 2 ^ k := (Nat.one_le_div_iff hpos).mpr h1
  have hd2 : x / 2 ^ k < 2 := by
    rw [Nat.div_lt_iff_lt_mul hpos]
    calc x < 2 ^ (k + 1) := h2
    _ = 2 * 2 ^ k := by ring
  have : x / 2 ^ k = 1 := by omega
  simp [this]

/-- The `alignment & (alignment - 1)` test of the wrappers characterizes
powers of two among the positive numbers. -/
theorem land_pred_eq_zero_iff {n : Nat} (hn : 0 < n) :
    n &&& (n - 1) = 0 ↔ ∃ k, n = 2 ^ k := by
  constructor
  · intro h
    by_contra hex
    push_neg at hex
    have h1 : 2 ^ Nat.log 2 n ≤ n := Nat.pow_log_le_self 2 hn.ne'
    have h2 : n < 2 ^ (Nat.log 2 n + 1) := Nat.lt_pow_succ_log_self (by norm_num) n
    have h3 : 2 ^ Nat.log 2 n < n :=
      lt_of_le_of_ne h1 (fun e => hex (Nat.log 2 n) e.symm)
    have hpos : 0 < 2 ^ Nat.log 2 n := Nat.two_pow_pos _
    have hb1 : n.testBit (Nat.log 2 n) = true := testBit_of_bounds h1 h2
    have hb2 : (n - 1).testBit (Nat.log 2 n) = true :=
      testBit_of_bounds (by omega) (by omega)
    have hb : (n &&& (n - 1)).testBit (Nat.log 2 n) = true := by
      rw [Nat.testBit_and, hb1, hb2]
      rfl
    rw [h, Nat.zero_testBit] at hb
    exact Bool.false_ne_true hb
  · rintro ⟨k, rfl⟩
    have h : (2 : Nat) ^ k &&& (2 ^ k - 1) = 2 ^ k % 2 ^ k :=
      Nat.and_pow_two_sub_one_eq_mod (2 ^ k) k
    rw [h, Nat.mod_self]

/-- Three is not a power of two (feeds the `alignment = 3` rejection). -/
theorem three_not_two_pow : ¬∃ k, (3 : Nat) = 2 ^ k := by
  rintro ⟨k, hk⟩
  match k, hk with
  | 0, hk => exact absurd hk (by norm_num)
  | 1, hk => exact absurd hk (by norm_num)
  | (k + 2), hk =>
    have h4 : (4 : Nat) ≤ 2 ^ (k + 2) := by
      calc (4 : Nat) = 2 ^ 2 := by norm_num
      _ ≤ 2 ^ (k + 2) := Nat.pow_le_pow_right (by norm_num) (by omega)
    omega

/-- Normalization of a power-of-two alignment: raised to at least
`alignof(max_align_t) = 16`, the power-of-two rounding loop is skipped. -/
theorem normalizeAlignment_two_pow (k : Nat) :
    normalizeAlignment (2 ^ k) = 2 ^ max k 4 := by
  by_cases hk : k < 4
  · interval_cases k <;> decide
  · have h16 : (16 : Nat) ≤ 2 ^ k := by
      calc (16 : Nat) = 2 ^ 4 := by norm_num
      _ ≤ 2 ^ k := Nat.pow_le_pow_right (by norm_num) (by omega)
    have hmax : max k 4 = k := by omega
    have hzero : (2 : Nat) ^ k &&& (2 ^ k - 1) = 0 := by
      rw [Nat.and_pow_two_sub_one_eq_mod, Nat.mod_self]
    unfold normalizeAlignment kMaxAlign
    rw [if_neg (by omega : ¬2 ^ k < 16)]
    rw [if_neg (by simp [hzero])]
    rw [hmax]

/-- C3: `calloc(count, size)` fails — returning null with `errno = ENOMEM`
set and the state otherwise untouched, hence no allocator call — exactly
when `size ≠ 0` and `count * size` overflows `size_t`; otherwise it calls
the underlying allocate once with `count * size`, propagates its result,
and zero-fills the whole region when the allocation succeeds. -/
theorem C3_calloc_overflow_guard (env : AllocEnv) (count size : Nat) (st : AllocState) :
    (size ≠ 0 ∧ 2 ^ 64 ≤ count * size →
      xxcalloc env count size st = (0, { st with errno := ENOMEM })) ∧
    (size = 0 ∨ count * size < 2 ^ 64 →
      (xxcalloc env count size st).2.events =
        st.events ++ [AllocEvent.malloc (count * size)
          (env.mallocAt st.nCalls (count * size))] ∧
      (xxcalloc env count size st).1 = env.mallocAt st.nCalls (count * size) ∧
      (env.mallocAt st.nCalls (count * size) ≠ 0 →
        ∀ i, i < count * size →
          (xxcalloc env count size st).2.mem
            (env.mallocAt st.nCalls (count * size) + i) = 0)) := by
  have hiff : ∀ _ : size ≠ 0,
      (count > (2 ^ 64 - 1) / size ↔ 2 ^ 64 ≤ count * size) := by
    intro hs
    have hpos : 0 < size := Nat.pos_of_ne_zero hs
    constructor
    · intro h
      by_contra hh
      push_neg at hh
      have : count ≤ (2 ^ 64 - 1) / size :=
        (Nat.le_div_iff_mul_le hpos).mpr (by omega)
      omega
    · intro h
      by_contra hh
      push_neg at hh
      have : count * size ≤ 2 ^ 64 - 1 := (Nat.le_div_iff_mul_le hpos).mp hh
      omega
  constructor
  · rintro ⟨hs, hov⟩
    unfold xxcalloc
    rw [if_pos ⟨hs, (hiff hs).mpr hov⟩]
  · intro h
    have hlt : count * size < 2 ^ 64 := by
      rcases h with h0 | h
      · simp [h0]
      · exact h
    have hguard : ¬(size ≠ 0 ∧ count > (2 ^ 64 - 1) / size) := by
      rintro ⟨hs, hc⟩
      have := (hiff hs).mp hc
      omega
    have hmod : count * size % 2 ^ 64 = count * size := Nat.mod_eq_of_lt hlt
    unfold xxcalloc
    rw [if_neg hguard]
    dsimp only [xxmalloc]
    rw [hmod]
    by_cases hr : env.mallocAt st.nCalls (count * size) = 0
    · rw [if_neg (by simpa using hr)]
      exact ⟨rfl, rfl, fun hcontra => absurd hr hcontra⟩
    · rw [if_pos (by simpa using hr)]
      refine ⟨rfl, rfl, fun _ i hi => ?_⟩
      dsimp only [memsetZero]
      rw [if_pos ⟨Nat.le_add_right _ _, by omega⟩]

/-- C4: for a power-of-two requested alignment (and an allocator returning
64-bit addresses), any non-null result of `replace_memalign` — from any of
its three attempts — is a multiple of the normalized alignment
`max(alignment, 16)`, and hence of the requested alignment. -/
theorem C4_memalign_alignment (env : AllocEnv) (alignment size : Nat) (st : AllocState)
    (halign : ∃ k, alignment = 2 ^ k) (hlt : alignment < 2 ^ 64)
    (henv : ∀ i s, env.mallocAt i s < 2 ^ 64) :
    (replace_memalign env alignment size st).1 ≠ 0 →
    normalizeAlignment alignment ∣ (replace_memalign env alignment size st).1 ∧
    alignment ∣ (replace_memalign env alignment size st).1 := by
  obtain ⟨k, rfl⟩ := halign
  intro _
  have hk64 : k < 64 := by
    by_contra hh
    push_neg at hh
    have : (2 : Nat) ^ 64 ≤ 2 ^ k := Nat.pow_le_pow_right (by norm_num) hh
    omega
  have hm64 : max k 4 ≤ 64 := by omega
  have hnorm : normalizeAlignment (2 ^ k) = 2 ^ max k 4 := normalizeAlignment_two_pow k
  have hmain : 2 ^ max k 4 ∣ (replace_memalign env (2 ^ k) size st).1 := by
    unfold replace_memalign
    rw [hnorm]
    dsimp only
    split_ifs with h1 h2 h3 h4
    · dsimp only [xxmalloc] at h1 ⊢
      exact (land_not64_self_iff _ _ (henv _ _) hm64).mp h1
    · dsimp only [xxmalloc] at h3 ⊢
      exact (land_not64_self_iff _ _ (henv _ _) hm64).mp h3
    · dsimp only [xxmalloc]
      exact dvd_land_not64 _ _ (Nat.mod_lt _ (by norm_num)) hm64
    · dsimp only [xxmalloc] at h4 ⊢
      exact (land_not64_self_iff _ _ (henv _ _) hm64).mp h4
    · dsimp only [xxmalloc]
      exact dvd_land_not64 _ _ (Nat.mod_lt _ (by norm_num)) hm64
  refine ⟨hnorm ▸ hmain, ?_⟩
  exact dvd_trans (pow_dvd_pow 2 (le_max_left k 4)) hmain

/-- C5: `posix_memalign` rejects a zero or non-power-of-two alignment with
`EINVAL`, leaving the state untouched (no allocator call); for a power-of-two
alignment it delegates to `replace_memalign`, returning `ENOMEM` (and storing
nothing) when that yields null, and on success returning 0 with the block
stored through the out-parameter. -/
theorem C5_posix_memalign_validation (env : AllocEnv) (alignment size : Nat)
    (st : AllocState) :
    ((alignment = 0 ∨ ¬∃ k, alignment = 2 ^ k) →
      replace_posix_memalign env alignment size st = ((EINVAL, none), st)) ∧
    ((∃ k, alignment = 2 ^ k) →
      ((replace_memalign env alignment size st).1 = 0 →
        replace_posix_memalign env alignment size st =
          ((ENOMEM, none), (replace_memalign env alignment size st).2)) ∧
      ((replace_memalign env alignment size st).1 ≠ 0 →
        replace_posix_memalign env alignment size st =
          ((0, some (replace_memalign env alignment size st).1),
            (replace_memalign env alignment size st).2))) := by
  constructor
  · intro h
    have hcond : alignment = 0 ∨ alignment &&& (alignment - 1) ≠ 0 := by
      by_cases ha : alignment = 0
      · exact Or.inl ha
      · rcases h with h0 | hnp
        · exact Or.inl h0
        · exact Or.inr (fun hz =>
            hnp ((land_pred_eq_zero_iff (Nat.pos_of_ne_zero ha)).mp hz))
    unfold replace_posix_memalign
    rw [if_pos hcond]
  · rintro ⟨k, rfl⟩
    have hcond : ¬((2 : Nat) ^ k = 0 ∨ (2 : Nat) ^ k &&& (2 ^ k - 1) ≠ 0) := by
      push_neg
      refine ⟨(Nat.two_pow_pos k).ne', ?_⟩
      rw [Nat.and_pow_two_sub_one_eq_mod, Nat.mod_self]
    unfold replace_posix_memalign
    rw [if_neg hcond]
    dsimp only
    constructor
    · intro h
      rw [if_pos h]
    · intro h
      rw [if_neg h]

/-- C2 (amended): on a deep shrink `0 < newSize ≤ oldSize/2` (with the
growth floor not wrapping `size_t`), the engine still applies the growth
floor: it allocates `oldSize + oldSize/4` bytes — not `newSize` — and, when
that allocation succeeds, returns the new block with `oldSize` bytes copied. -/
theorem C2_deep_shrink_amended (env : AllocEnv) (p n : Nat) (st : AllocState)
    (hp : p ≠ 0) (hn : 0 < n) (hs : n ≤ env.usableSize p / 2)
    (hw : env.usableSize p + env.usableSize p / 4 < 2 ^ 64) :
    (xxrealloc env p n st).2.events =
      st.events ++ [AllocEvent.usableQuery p,
        AllocEvent.malloc (env.usableSize p + env.usableSize p / 4)
          (env.mallocAt st.nCalls (env.usableSize p + env.usableSize p / 4))] ∧
    (env.mallocAt st.nCalls (env.usableSize p + env.usableSize p / 4) ≠ 0 →
      (xxrealloc env p n st).1 =
        env.mallocAt st.nCalls (env.usableSize p + env.usableSize p / 4) ∧
      ∀ i, i < env.usableSize p →
        (xxrealloc env p n st).2.mem
          (env.mallocAt st.nCalls (env.usableSize p + env.usableSize p / 4) + i) =
        st.mem (p + i)) := by
  have hold : 2 ≤ env.usableSize p := by omega
  unfold xxrealloc
  rw [if_neg hp, if_neg (by omega : ¬n = 0)]
  dsimp only [xxmalloc_usable_size]
  rw [if_neg (by omega : ¬(n > env.usableSize p / 2 ∧ n ≤ env.usableSize p))]
  rw [Nat.mod_eq_of_lt hw]
  rw [if_pos (by omega : n < env.usableSize p + env.usableSize p / 4)]
  dsimp only [xxmalloc]
  by_cases hr : env.mallocAt st.nCalls (env.usableSize p + env.usableSize p / 4) = 0
  · rw [if_pos hr]
    refine ⟨by simp, fun hcontra => absurd hr hcontra⟩
  · rw [if_neg hr]
    refine ⟨by simp, fun _ => ⟨rfl, fun i hi => ?_⟩⟩
    have hcopy : (if env.usableSize p < env.usableSize p + env.usableSize p / 4
        then env.usableSize p else env.usableSize p + env.usableSize p / 4) =
        env.usableSize p := by
      split <;> omega
    dsimp only
    rw [hcopy]
    dsimp only [memcpyBytes]
    rw [if_pos ⟨Nat.le_add_right _ _, by omega⟩]
    congr 1
    omega

/-- Appending a nonzero-size allocation preserves zero-free traces. -/
theorem noZeroMalloc_append_malloc {evs : List AllocEvent} {sz r : Nat}
    (h : NoZeroMalloc evs) (hsz : sz ≠ 0) :
    NoZeroMalloc (evs ++ [AllocEvent.malloc sz r]) := by
  intro r' hm
  rcases List.mem_append.mp hm with hm | hm
  · exact h r' hm
  · simp only [List.mem_singleton, AllocEvent.malloc.injEq] at hm
    exact hsz hm.1.symm

/-- Appending a free event preserves zero-free traces. -/
theorem noZeroMalloc_append_free {evs : List AllocEvent} {p : Nat}
    (h : NoZeroMalloc evs) :
    NoZeroMalloc (evs ++ [AllocEvent.free p]) := by
  intro r' hm
  rcases List.mem_append.mp hm with hm | hm
  · exact h r' hm
  · simp at hm

/-- Appending a usable-size query preserves zero-free traces. -/
theorem noZeroMalloc_append_usable {evs : List AllocEvent} {p : Nat}
    (h : NoZeroMalloc evs) :
    NoZeroMalloc (evs ++ [AllocEvent.usableQuery p]) := by
  intro r' hm
  rcases List.mem_append.mp hm with hm | hm
  · exact h r' hm
  · simp at hm

/-- C9 (amended): the 0-size guard holds except for degenerate requests.
`realloc` never calls the underlying allocate with size 0 unless
`ptr = null ∧ newSize = 0`; `calloc` never does unless `count * size = 0`;
`memalign` never does unless `size = 0` or one of its two internal `size_t`
size roundings wraps to 0. -/
theorem C9_zero_alloc_amended :
    (∀ (env : AllocEnv) (p n : Nat) (st : AllocState), p ≠ 0 ∨ 0 < n →
      NoZeroMalloc st.events → NoZeroMalloc (xxrealloc env p n st).2.events) ∧
    (∀ (env : AllocEnv) (count size : Nat) (st : AllocState),
      count ≠ 0 → size ≠ 0 →
      NoZeroMalloc st.events → NoZeroMalloc (xxcalloc env count size st).2.events) ∧
    (∀ (env : AllocEnv) (alignment size : Nat) (st : AllocState),
      size ≠ 0 →
      (if normalizeAlignment alignment < size
        then (size + normalizeAlignment alignment - size % normalizeAlignment alignment) % 2 ^ 64
        else normalizeAlignment alignment) ≠ 0 →
      (2 * normalizeAlignment alignment +
        (if normalizeAlignment alignment < size
          then (size + normalizeAlignment alignment - size % normalizeAlignment alignment) % 2 ^ 64
          else normalizeAlignment alignment)) % 2 ^ 64 ≠ 0 →
      NoZeroMalloc st.events →
      NoZeroMalloc (replace_memalign env alignment size st).2.events) := by
  refine ⟨?_, ?_, ?_⟩
  · intro env p n st h h0
    unfold xxrealloc
    by_cases hp : p = 0
    · rw [if_pos hp]
      have hn : 0 < n := by
        rcases h with h | h
        · exact absurd hp h
        · exact h
      dsimp only [xxmalloc]
      exact noZeroMalloc_append_malloc h0 (by omega)
    · rw [if_neg hp]
      by_cases hn0 : n = 0
      · rw [if_pos hn0]
        dsimp only [xxmalloc, xxfree]
        exact noZeroMalloc_append_malloc (noZeroMalloc_append_free h0) one_ne_zero
      · rw [if_neg hn0]
        dsimp only [xxmalloc_usable_size]
        by_cases hshrink : n > env.usableSize p / 2 ∧ n ≤ env.usableSize p
        · rw [if_pos hshrink]
          exact noZeroMalloc_append_usable h0
        · rw [if_neg hshrink]
          by_cases hg : n < (env.usableSize p + env.usableSize p / 4) % 2 ^ 64
          · rw [if_pos hg]
            dsimp only [xxmalloc]
            by_cases hz : env.mallocAt st.nCalls
                ((env.usableSize p + env.usableSize p / 4) % 2 ^ 64) = 0
            · rw [if_pos hz]
              exact noZeroMalloc_append_malloc (noZeroMalloc_append_usable h0) (by omega)
            · rw [if_neg hz]
              exact noZeroMalloc_append_malloc (noZeroMalloc_append_usable h0) (by omega)
          · rw [if_neg hg]
            dsimp only [xxmalloc]
            by_cases hz : env.mallocAt st.nCalls n = 0
            · rw [if_pos hz]
              exact noZeroMalloc_append_malloc (noZeroMalloc_append_usable h0) hn0
            · rw [if_neg hz]
              exact noZeroMalloc_append_malloc (noZeroMalloc_append_usable h0) hn0
  · intro env count size st hc hs h0
    unfold xxcalloc
    by_cases hguard : size ≠ 0 ∧ count > (2 ^ 64 - 1) / size
    · rw [if_pos hguard]
      exact h0
    · rw [if_neg hguard]
      have hle : count ≤ (2 ^ 64 - 1) / size := by
        rcases not_and_or.mp hguard with h | h
        · exact absurd hs h
        · omega
      have hprod : count * size ≤ 2 ^ 64 - 1 :=
        (Nat.le_div_iff_mul_le (Nat.pos_of_ne_zero hs)).mp hle
      have hmod : count * size % 2 ^ 64 = count * size :=
        Nat.mod_eq_of_lt (by omega)
      have hne : count * size % 2 ^ 64 ≠ 0 := by
        rw [hmod]
        exact Nat.mul_ne_zero hc hs
      dsimp only [xxmalloc]
      by_cases hz : env.mallocAt st.nCalls (count * size % 2 ^ 64) ≠ 0
      · rw [if_pos hz]
        exact noZeroMalloc_append_malloc h0 hne
      · rw [if_neg hz]
        exact noZeroMalloc_append_malloc h0 hne
  · intro env alignment size st hs hs2 hs3 h0
    unfold replace_memalign
    dsimp only
    split_ifs with h1 h2 h3 h4
    · dsimp only [xxmalloc]
      exact noZeroMalloc_append_malloc h0 hs
    · rw [if_pos h2] at hs2 hs3
      dsimp only [xxmalloc, xxfree]
      exact noZeroMalloc_append_malloc
        (noZeroMalloc_append_free (noZeroMalloc_append_malloc h0 hs)) hs2
    · rw [if_pos h2] at hs2 hs3
      dsimp only [xxmalloc, xxfree]
      exact noZeroMalloc_append_malloc
        (noZeroMalloc_append_free (noZeroMalloc_append_malloc
          (noZeroMalloc_append_free (noZeroMalloc_append_malloc h0 hs)) hs2)) hs3
    · rw [if_neg h2] at hs2 hs3
      dsimp only [xxmalloc, xxfree]
      exact noZeroMalloc_append_malloc
        (noZeroMalloc_append_free (noZeroMalloc_append_malloc h0 hs)) hs2
    · rw [if_neg h2] at hs2 hs3
      dsimp only [xxmalloc, xxfree]
      exact noZeroMalloc_append_malloc
        (noZeroMalloc_append_free (noZeroMalloc_append_malloc
          (noZeroMalloc_append_free (noZeroMalloc_append_malloc h0 hs)) hs2)) hs3

/-- Witness for C2 (amended) at `ptr = 100`, `oldSize = 8`, `newSize = 2`. -/
theorem C2_deep_shrink_amended_witness :
    ((100 : Nat) ≠ 0 ∧ 0 < 2 ∧ 2 ≤ envGrow.usableSize 100 / 2 ∧
      envGrow.usableSize 100 + envGrow.usableSize 100 / 4 < 2 ^ 64) ∧
    ((xxrealloc envGrow 100 2 st0).2.events =
      st0.events ++ [AllocEvent.usableQuery 100,
        AllocEvent.malloc (envGrow.usableSize 100 + envGrow.usableSize 100 / 4)
          (envGrow.mallocAt st0.nCalls
            (envGrow.usableSize 100 + envGrow.usableSize 100 / 4))] ∧
    (envGrow.mallocAt st0.nCalls
        (envGrow.usableSize 100 + envGrow.usableSize 100 / 4) ≠ 0 →
      (xxrealloc envGrow 100 2 st0).1 =
        envGrow.mallocAt st0.nCalls
          (envGrow.usableSize 100 + envGrow.usableSize 100 / 4) ∧
      ∀ i, i < envGrow.usableSize 100 →
        (xxrealloc envGrow 100 2 st0).2.mem
          (envGrow.mallocAt st0.nCalls
            (envGrow.usableSize 100 + envGrow.usableSize 100 / 4) + i) =
        st0.mem (100 + i))) :=
  ⟨⟨by decide, by decide, by decide, by decide⟩,
    C2_deep_shrink_amended envGrow 100 2 st0 (by decide) (by decide) (by decide)
      (by decide)⟩

/-- Witness for C3 at the spec's own example `count = SIZE_MAX, size = 2`. -/
theorem C3_calloc_overflow_guard_witness :
    ((2 : Nat) ≠ 0 ∧ 2 ^ 64 ≤ (2 ^ 64 - 1) * 2) ∧
    xxcalloc envGrow (2 ^ 64 - 1) 2 st0 = (0, { st0 with errno := ENOMEM }) :=
  ⟨⟨by decide, by decide⟩,
    (C3_calloc_overflow_guard envGrow (2 ^ 64 - 1) 2 st0).1 ⟨by decide, by decide⟩⟩

/-- Witness for C4 at `alignment = 8`, `size = 5`, allocator address 1024. -/
theorem C4_memalign_alignment_witness :
    ((∃ k, (8 : Nat) = 2 ^ k) ∧ (8 : Nat) < 2 ^ 64 ∧
      (∀ i s, envAligned.mallocAt i s < 2 ^ 64) ∧
      (replace_memalign envAligned 8 5 st0).1 ≠ 0) ∧
    (normalizeAlignment 8 ∣ (replace_memalign envAligned 8 5 st0).1 ∧
      8 ∣ (replace_memalign envAligned 8 5 st0).1) :=
  ⟨⟨⟨3, by norm_num⟩, by decide, fun _ _ => by norm_num [envAligned], by decide⟩,
    C4_memalign_alignment envAligned 8 5 st0 ⟨3, by norm_num⟩ (by decide)
      (fun _ _ => by norm_num [envAligned]) (by decide)⟩

/-- Witness for C5 at the spec's own rejected input `alignment = 3`. -/
theorem C5_posix_memalign_validation_witness :
    ((3 : Nat) = 0 ∨ ¬∃ k, (3 : Nat) = 2 ^ k) ∧
    replace_posix_memalign envGrow 3 5 st0 = ((EINVAL, none), st0) :=
  ⟨Or.inr three_not_two_pow,
    (C5_posix_memalign_validation envGrow 3 5 st0).1 (Or.inr three_not_two_pow)⟩

/-- Witness for C6 at `oldSize = 8`, `newSize = 5`. -/
theorem C6_shrink_dampening_witness :
    ((100 : Nat) ≠ 0 ∧ envGrow.usableSize 100 / 2 < 5 ∧
      5 ≤ envGrow.usableSize 100) ∧
    xxrealloc envGrow 100 5 st0 =
      (100, { st0 with events := st0.events ++ [AllocEvent.usableQuery 100] }) :=
  ⟨⟨by decide, by decide, by decide⟩,
    C6_shrink_dampening envGrow 100 5 st0 (by decide) (by decide) (by decide)⟩

/-- Witness for C7 with a failing allocator double: the original block 100
is released after the underlying resize returns null. -/
theorem C7_reallocf_frees_on_failure_witness :
    (xxrealloc envFail 100 20 st0).1 = 0 ∧
    replace_reallocf envFail 100 20 st0 =
      (0, { (xxrealloc envFail 100 20 st0).2 with
            events := (xxrealloc envFail 100 20 st0).2.events ++
              [AllocEvent.free 100] }) :=
  ⟨by decide, (C7_reallocf_frees_on_failure envFail 100 20 st0).2 (by decide)⟩

/-- Witness for C8 at `ptr = 100`. -/
theorem C8_realloc_zero_witness :
    (100 : Nat) ≠ 0 ∧
    (xxrealloc envGrow 100 0 st0 =
      (envGrow.mallocAt st0.nCalls 1,
        { st0 with nCalls := st0.nCalls + 1,
                   events := st0.events ++ [AllocEvent.free 100,
                     AllocEvent.malloc 1 (envGrow.mallocAt st0.nCalls 1)] }) ∧
    (envGrow.mallocAt st0.nCalls 1 ≠ 0 → (xxrealloc envGrow 100 0 st0).1 ≠ 0)) :=
  ⟨by decide, C8_realloc_zero_frees_returns_one_byte envGrow 100 st0 (by decide)⟩

/-- Witness for C9 (amended): a growing resize from a zero-free trace stays
zero-free. -/
theorem C9_zero_alloc_amended_witness :
    ((100 : Nat) ≠ 0 ∨ 0 < 20) ∧ NoZeroMalloc st0.events ∧
    NoZeroMalloc (xxrealloc envGrow 100 20 st0).2.events :=
  ⟨Or.inl (by decide), fun _ hm => absurd hm (List.not_mem_nil _),
    C9_zero_alloc_amended.1 envGrow 100 20 st0 (Or.inl (by decide))
      (fun _ hm => absurd hm (List.not_mem_nil _))⟩

/-- Witness for C10 at the non-null pointer 7 (and at null). -/
theorem C10_usable_size_null_witness :
    (7 : Nat) ≠ 0 ∧
    (replace_malloc_usable_size envGrow 0 st0 = (0, st0) ∧
      ((7 : Nat) ≠ 0 → replace_malloc_usable_size envGrow 7 st0 =
        (envGrow.usableSize 7,
          { st0 with events := st0.events ++ [AllocEvent.usableQuery 7] }))) :=
  ⟨by decide, C10_usable_size_null envGrow 7 st0⟩

end HeapLayers
